import Mathlib

/-!
# Verification of the pylook signal-cleanup transforms and version helper

The repository's example script (`examples/p655_pure_python.py`) drives four
column transforms from `pylook.calc` (`zero`, `remove_offset`,
`elastic_correction`, `friction`); the implementations of those transforms are
not part of this source tree, so they are modelled here from the
specification's contracts.  The version helper `get_version`
(`pylook/_version.py`) is present in the source and is embedded directly.

Columns are modelled as a physical-unit tag together with a list of exact
rational samples; fallible transforms return `Except PylookError Column`.
-/

deriving instance DecidableEq for Except

namespace Pylook

/-- Error taxonomy of the transform library, from the spec's section 7:
`IndexOutOfRange` (row index or window outside column bounds), `UnitMismatch`
(dimensionally incompatible operands), `InvalidArgument` (unrecognized
mode/option value). -/
inductive PylookError where
  | indexOutOfRange
  | unitMismatch
  | invalidArgument
  deriving DecidableEq, Repr

/-- A column: a physical-unit tag and an ordered sequence of numeric samples.
Samples are exact rationals, so the embedding has no floating-point
infinities or NaNs. -/
structure Column where
  unit : String
  samples : List ℚ
  deriving DecidableEq, Repr

/-- Index-aware map over a list, carrying the index of the head as an extra
argument so that facts about it can be proved by structural induction. -/
def mapIdxFrom (f : ℕ → ℚ → ℚ) : ℕ → List ℚ → List ℚ
  | _, [] => []
  | k, x :: xs => f k x :: mapIdxFrom f (k + 1) xs

theorem mapIdxFrom_length (f : ℕ → ℚ → ℚ) (k : ℕ) (l : List ℚ) :
    (mapIdxFrom f k l).length = l.length := by
  induction l generalizing k with
  | nil => rfl
  | cons x xs ih => simp [mapIdxFrom, ih]

theorem mapIdxFrom_getElem? (f : ℕ → ℚ → ℚ) (k : ℕ) (l : List ℚ) (i : ℕ) :
    (mapIdxFrom f k l)[i]? = Option.map (f (k + i)) l[i]? := by
  induction l generalizing k i with
  | nil => simp [mapIdxFrom]
  | cons x xs ih =>
    cases i with
    | zero => simp [mapIdxFrom]
    | succ n =>
      simp only [mapIdxFrom, List.getElem?_cons_succ]
      rw [ih]
      ring_nf

/-- Modelled from the spec: `pylook.calc.zero(column, index, mode)` is not in
this source tree.  Per the spec's contract it shifts every sample by the
sample value at row `index` (so row `index` becomes exactly zero); with
`mode = 'before'` every row before `index` is in addition forced to zero;
one further recognized mode (here called `'at'`, the spec does not fix its
name) performs only the global shift; any unrecognized mode fails with
`InvalidArgument`; an out-of-bounds `index` fails with `IndexOutOfRange`.
The column's unit is preserved and the input is not mutated. -/
def zero (c : Column) (index : ℕ) (mode : String) : Except PylookError Column :=
  match c.samples[index]? with
  | none => .error .indexOutOfRange
  | some v =>
    if mode = "before" then
      .ok ⟨c.unit, mapIdxFrom (fun j x => if j < index then 0 else x - v) 0 c.samples⟩
    else if mode = "at" then
      .ok ⟨c.unit, c.samples.map (fun x => x - v)⟩
    else
      .error .invalidArgument

/-- Modelled from the spec: `pylook.calc.remove_offset(column, start, end,
set_between)` is not in this source tree.  Per the spec's contract it computes
the offset as the sample at `stop` minus the sample at `start`, subtracts that
offset from every sample at index `>= stop`; with `set_between = true` every
row strictly between `start` and `stop` is overwritten with the post-shift
boundary value at `stop`; with `set_between = false` those rows are left as
recorded.  It fails with `IndexOutOfRange` if `start > stop` or either bound
is out of the column's bounds. -/
def remove_offset (c : Column) (start stop : ℕ) (set_between : Bool) :
    Except PylookError Column :=
  if stop < start then .error .indexOutOfRange
  else
    match c.samples[start]?, c.samples[stop]? with
    | some vs, some ve =>
      let offset := ve - vs
      .ok ⟨c.unit, mapIdxFrom (fun j x =>
        if stop ≤ j then x - offset
        else if set_between ∧ start < j then ve - offset
        else x) 0 c.samples⟩
    | _, _ => .error .indexOutOfRange

/-- Polynomial evaluation with coefficients ordered highest-degree-first,
the convention of `np.polyval` named by the spec. -/
def polyval (coeffs : List ℚ) (x : ℚ) : ℚ :=
  coeffs.foldl (fun acc c => acc * x + c) 0

/-- Modelled from the spec: `pylook.calc.elastic_correction(stress_column,
displacement_column, coefficients)` is not in this source tree.  Per the
spec's contract it evaluates the polynomial (coefficients highest-degree
first) at each stress sample and subtracts the result from the corresponding
displacement sample; the unit bookkeeping is enforced by the external unit
system, so here the result carries the displacement column's unit. -/
def elastic_correction (stress displacement : Column) (coeffs : List ℚ) : Column :=
  ⟨displacement.unit,
    (stress.samples.zip displacement.samples).map
      (fun p => p.2 - polyval coeffs p.1)⟩

/-- Modelled from the spec: `pylook.calc.friction(shear, normal)` is not in
this source tree.  Per the spec's contract it is the elementwise ratio
`shear / normal`, except that rows with a degenerate (zero) normal stress are
set to the sentinel value zero instead of raising or producing an unbounded
value; the result is dimensionless. -/
def friction (shear normal : Column) : Column :=
  ⟨"dimensionless",
    (shear.samples.zip normal.samples).map
      (fun p => if p.2 = 0 then 0 else p.1 / p.2)⟩

/-- A Python exception as seen by `get_version`: the two classes its
`except (ImportError, LookupError)` clause names, and any other exception
(tagged by its description). -/
inductive PyExc where
  | importError
  | lookupError
  | other (description : String)
  deriving DecidableEq, Repr

/-- Whether `get_version`'s `except (ImportError, LookupError)` clause
catches the exception. -/
def isCaught : PyExc → Bool
  | .importError => true
  | .lookupError => true
  | .other _ => false

/-- The environment `get_version` runs in: the outcome of the
source-control path (`from setuptools_scm import get_version` followed by the
call, collapsed into one result) and the outcome of the fallback path
(`from pkg_resources import get_distribution` followed by the attribute
access, collapsed into one result). -/
structure VersionEnv where
  scm : Except PyExc String
  pkg : Except PyExc String

/-- Embedding of `get_version` from `pylook/_version.py`: try the
setuptools_scm path; on `ImportError` or `LookupError` fall back to the
pkg_resources path; any other exception from the first path, and any
exception from the fallback path, propagates. -/
def get_version (env : VersionEnv) : Except PyExc String :=
  match env.scm with
  | .ok v => .ok v
  | .error e => if isCaught e then env.pkg else .error e

end Pylook

namespace Pylook

/-- C2: for every column `c` and every valid index `i`,
`zero(c, i, mode='before')` returns a column whose sample at `i` is zero (in
`c`'s unit), whose samples before `i` are all zero, and whose samples after
`i` are the original samples shifted by the negated sample value at `i`. -/
theorem zero_before_spec (c : Column) (i : ℕ) (v : ℚ)
    (h : c.samples[i]? = some v) :
    ∃ c', zero c i "before" = Except.ok c' ∧ c'.unit = c.unit ∧
      c'.samples[i]? = some 0 ∧
      (∀ j, j < i → c'.samples[j]? = some 0) ∧
      (∀ k x, i < k → c.samples[k]? = some x → c'.samples[k]? = some (x - v)) := by
  have hi : i < c.samples.length := (List.getElem?_eq_some.mp h).1
  refine ⟨⟨c.unit, mapIdxFrom (fun j x => if j < i then 0 else x - v) 0 c.samples⟩,
    by simp [zero, h], rfl, ?_, ?_, ?_⟩
  · show (mapIdxFrom _ 0 c.samples)[i]? = some 0
    rw [mapIdxFrom_getElem?, h]
    simp
  · intro j hj
    have hjl : j < c.samples.length := hj.trans hi
    show (mapIdxFrom _ 0 c.samples)[j]? = some 0
    rw [mapIdxFrom_getElem?, List.getElem?_eq_getElem hjl]
    simp [hj]
  · intro k x hk hx
    show (mapIdxFrom _ 0 c.samples)[k]? = some (x - v)
    rw [mapIdxFrom_getElem?, hx]
    simp [Nat.not_lt.mpr (le_of_lt hk)]

/-- Witness for C2 at the spec's example column `[5,5,5,8,8]` MPa, index 2. -/
theorem zero_before_spec_witness :
    ∃ c', zero ⟨"MPa", [5, 5, 5, 8, 8]⟩ 2 "before" = Except.ok c' ∧
      c'.unit = (Column.mk "MPa" [5, 5, 5, 8, 8]).unit ∧
      c'.samples[2]? = some 0 ∧
      (∀ j, j < 2 → c'.samples[j]? = some 0) ∧
      (∀ k x, 2 < k → (Column.mk "MPa" [5, 5, 5, 8, 8]).samples[k]? = some x →
        c'.samples[k]? = some (x - 5)) :=
  zero_before_spec ⟨"MPa", [5, 5, 5, 8, 8]⟩ 2 5 (by decide)

/-- C6: `zero` fails with `IndexOutOfRange` whenever its index is outside
the column bounds, and `remove_offset` fails with `IndexOutOfRange` whenever
`start > stop` or either bound is outside the column bounds; the error is
returned by the call itself, with no clamping of indices. -/
theorem transform_index_errors :
    (∀ (c : Column) (i : ℕ) (mode : String), c.samples.length ≤ i →
        zero c i mode = Except.error PylookError.indexOutOfRange) ∧
    (∀ (c : Column) (s e : ℕ) (b : Bool), e < s →
        remove_offset c s e b = Except.error PylookError.indexOutOfRange) ∧
    (∀ (c : Column) (s e : ℕ) (b : Bool), s ≤ e →
        (c.samples.length ≤ s ∨ c.samples.length ≤ e) →
        remove_offset c s e b = Except.error PylookError.indexOutOfRange) := by
  refine ⟨?_, ?_, ?_⟩
  · intro c i mode hlen
    simp [zero, List.getElem?_eq_none_iff.mpr hlen]
  · intro c s e b hlt
    simp [remove_offset, hlt]
  · intro c s e b hse hor
    have hns : ¬ e < s := Nat.not_lt.mpr hse
    have hlen : c.samples.length ≤ e := by
      rcases hor with h1 | h2
      · exact h1.trans hse
      · exact h2
    have he : c.samples[e]? = none := List.getElem?_eq_none_iff.mpr hlen
    cases hs : c.samples[s]? <;> simp [remove_offset, hns, he, hs]

/-- Witness for C6: out-of-bounds index for `zero`, reversed window and
out-of-bounds window for `remove_offset`, on a concrete two-sample column. -/
theorem transform_index_errors_witness :
    zero ⟨"u", [(3 : ℚ), 4]⟩ 2 "before" = Except.error PylookError.indexOutOfRange ∧
    remove_offset ⟨"u", [(3 : ℚ), 4]⟩ 1 0 true = Except.error PylookError.indexOutOfRange ∧
    remove_offset ⟨"u", [(3 : ℚ), 4]⟩ 0 5 false = Except.error PylookError.indexOutOfRange :=
  ⟨transform_index_errors.1 ⟨"u", [(3 : ℚ), 4]⟩ 2 "before" (by decide),
   transform_index_errors.2.1 ⟨"u", [(3 : ℚ), 4]⟩ 1 0 true (by decide),
   transform_index_errors.2.2 ⟨"u", [(3 : ℚ), 4]⟩ 0 5 false (by decide) (Or.inr (by decide))⟩

/-- C7: for a valid index, `zero` with any mode outside the recognized set
(`'before'` and the no-adjustment mode, here `'at'`) fails with
`InvalidArgument`. -/
theorem zero_invalid_mode (c : Column) (i : ℕ) (v : ℚ)
    (h : c.samples[i]? = some v) (mode : String)
    (h1 : mode ≠ "before") (h2 : mode ≠ "at") :
    zero c i mode = Except.error PylookError.invalidArgument := by
  simp [zero, h, h1, h2]

/-- Witness for C7 at a concrete column and the unrecognized mode
`'sideways'`. -/
theorem zero_invalid_mode_witness :
    zero ⟨"u", [(3 : ℚ), 4]⟩ 0 "sideways" = Except.error PylookError.invalidArgument :=
  zero_invalid_mode ⟨"u", [(3 : ℚ), 4]⟩ 0 3 (by decide) "sideways" (by decide) (by decide)

end Pylook

namespace Pylook

/-- C1: for an in-bounds window `start <= stop`, `remove_offset` computes the
offset as the sample at `stop` minus the sample at `start` and subtracts it
from every sample at index `>= stop`; in particular
`remove_offset([1,1,9,9,2,2], 1, 4, set_between=true)` yields
`[1,1,1,1,1,1]`. -/
theorem remove_offset_tail_spec (c : Column) (s e : ℕ) (b : Bool) (vs ve : ℚ)
    (hse : s ≤ e) (hs : c.samples[s]? = some vs) (he : c.samples[e]? = some ve) :
    (∃ c', remove_offset c s e b = Except.ok c' ∧ c'.unit = c.unit ∧
        ∀ j x, e ≤ j → c.samples[j]? = some x →
          c'.samples[j]? = some (x - (ve - vs))) ∧
    remove_offset ⟨"MPa", [1, 1, 9, 9, 2, 2]⟩ 1 4 true =
      Except.ok ⟨"MPa", [1, 1, 1, 1, 1, 1]⟩ := by
  constructor
  · have hns : ¬ e < s := Nat.not_lt.mpr hse
    refine ⟨⟨c.unit, mapIdxFrom (fun j x =>
      if e ≤ j then x - (ve - vs)
      else if b ∧ s < j then ve - (ve - vs)
      else x) 0 c.samples⟩, ?_, rfl, ?_⟩
    · simp [remove_offset, hns, hs, he]
    · intro j x hj hx
      show (mapIdxFrom _ 0 c.samples)[j]? = some (x - (ve - vs))
      rw [mapIdxFrom_getElem?, hx]
      simp [hj]
  · norm_num [remove_offset, mapIdxFrom]

/-- Witness for C1 at the spec's example `[1,1,9,9,2,2]`, window `[1,4]`. -/
theorem remove_offset_tail_spec_witness :
    (∃ c', remove_offset ⟨"MPa", [1, 1, 9, 9, 2, 2]⟩ 1 4 true = Except.ok c' ∧
        c'.unit = (Column.mk "MPa" [1, 1, 9, 9, 2, 2]).unit ∧
        ∀ j x, 4 ≤ j → (Column.mk "MPa" [1, 1, 9, 9, 2, 2]).samples[j]? = some x →
          c'.samples[j]? = some (x - (2 - 1))) ∧
    remove_offset ⟨"MPa", [1, 1, 9, 9, 2, 2]⟩ 1 4 true =
      Except.ok ⟨"MPa", [1, 1, 1, 1, 1, 1]⟩ :=
  remove_offset_tail_spec ⟨"MPa", [1, 1, 9, 9, 2, 2]⟩ 1 4 true 1 2
    (by decide) (by decide) (by decide)

/-- C8: for an in-bounds window `start <= stop`, `remove_offset` with
`set_between=false` leaves rows strictly between the bounds and rows at
index `<= start` unchanged, shifting only rows at index `>= stop`; with
`set_between=true` every row strictly between the bounds is overwritten with
the post-shift boundary value at `stop` (which equals the sample at
`start`). -/
theorem remove_offset_frame_spec (c : Column) (s e : ℕ) (b : Bool) (vs ve : ℚ)
    (hse : s ≤ e) (hs : c.samples[s]? = some vs) (he : c.samples[e]? = some ve) :
    ∃ c', remove_offset c s e b = Except.ok c' ∧
      (∀ j, j ≤ s → c'.samples[j]? = c.samples[j]?) ∧
      (b = false → ∀ j, s < j → j < e → c'.samples[j]? = c.samples[j]?) ∧
      (b = true → ∀ j, s < j → j < e → j < c.samples.length →
        c'.samples[j]? = some vs) := by
  have hns : ¬ e < s := Nat.not_lt.mpr hse
  refine ⟨⟨c.unit, mapIdxFrom (fun j x =>
    if e ≤ j then x - (ve - vs)
    else if b ∧ s < j then ve - (ve - vs)
    else x) 0 c.samples⟩, by simp [remove_offset, hns, hs, he], ?_, ?_, ?_⟩
  · intro j hj
    show (mapIdxFrom _ 0 c.samples)[j]? = c.samples[j]?
    rw [mapIdxFrom_getElem?]
    cases hjx : c.samples[j]? with
    | none => rfl
    | some x =>
      by_cases hej : e ≤ j
      · have hes : e = s := le_antisymm (hej.trans hj) hse
        have hvv : vs = ve := by
          rw [hes] at he
          exact Option.some.inj (hs.symm.trans he)
        simp [hej, hvv]
      · have hnsj : ¬ s < j := Nat.not_lt.mpr hj
        simp [hej, hnsj]
  · rintro rfl j hsj hje
    show (mapIdxFrom _ 0 c.samples)[j]? = c.samples[j]?
    rw [mapIdxFrom_getElem?]
    cases hjx : c.samples[j]? with
    | none => rfl
    | some x => simp [Nat.not_le.mpr hje]
  · rintro rfl j hsj hje hjl
    show (mapIdxFrom _ 0 c.samples)[j]? = some vs
    rw [mapIdxFrom_getElem?, List.getElem?_eq_getElem hjl]
    have : ve - (ve - vs) = vs := by ring
    simp [Nat.not_le.mpr hje, hsj, this]

/-- Witness for C8 at the spec's example `[1,1,9,9,2,2]`, window `[1,4]`,
with `set_between=true`. -/
theorem remove_offset_frame_spec_witness :
    ∃ c', remove_offset ⟨"MPa", [1, 1, 9, 9, 2, 2]⟩ 1 4 true = Except.ok c' ∧
      (∀ j, j ≤ 1 → c'.samples[j]? = (Column.mk "MPa" [1, 1, 9, 9, 2, 2]).samples[j]?) ∧
      (true = false → ∀ j, 1 < j → j < 4 →
        c'.samples[j]? = (Column.mk "MPa" [1, 1, 9, 9, 2, 2]).samples[j]?) ∧
      (true = true → ∀ j, 1 < j → j < 4 →
        j < (Column.mk "MPa" [1, 1, 9, 9, 2, 2]).samples.length →
        c'.samples[j]? = some 1) :=
  remove_offset_frame_spec ⟨"MPa", [1, 1, 9, 9, 2, 2]⟩ 1 4 true 1 2
    (by decide) (by decide) (by decide)

end Pylook

namespace Pylook

/-- C4: `remove_offset` is idempotent for a fixed window and `set_between`
flag: a second application to already-corrected data returns the corrected
column unchanged, because the offset it computes there is zero. -/
theorem remove_offset_idempotent (c c' : Column) (s e : ℕ) (b : Bool)
    (h : remove_offset c s e b = Except.ok c') :
    remove_offset c' s e b = Except.ok c' := by
  obtain ⟨u', l'⟩ := c'
  by_cases hlt : e < s
  · simp [remove_offset, hlt] at h
  cases hvs : c.samples[s]? with
  | none => simp [remove_offset, hlt, hvs] at h
  | some vs =>
    cases hve : c.samples[e]? with
    | none => simp [remove_offset, hlt, hvs, hve] at h
    | some ve =>
      have hse : s ≤ e := Nat.not_lt.mp hlt
      simp only [remove_offset, if_neg hlt, hvs, hve, Except.ok.injEq,
        Column.mk.injEq] at h
      obtain ⟨hu, hsamp⟩ := h
      subst hsamp
      have hs' : (mapIdxFrom (fun j x =>
          if e ≤ j then x - (ve - vs)
          else if b ∧ s < j then ve - (ve - vs)
          else x) 0 c.samples)[s]? = some vs := by
        rw [mapIdxFrom_getElem?, hvs]
        rcases Nat.lt_or_ge s e with hslt | hsge
        · simp [Nat.not_le.mpr hslt]
        · have hes : s = e := le_antisymm hse hsge
          have hvv : vs = ve := by
            rw [hes] at hvs
            exact Option.some.inj (hvs.symm.trans hve)
          simp [← hes, hvv]
      have he' : (mapIdxFrom (fun j x =>
          if e ≤ j then x - (ve - vs)
          else if b ∧ s < j then ve - (ve - vs)
          else x) 0 c.samples)[e]? = some vs := by
        rw [mapIdxFrom_getElem?, hve]
        have hvv : ve - (ve - vs) = vs := by ring
        simp [hvv]
      simp only [remove_offset, if_neg hlt, hs', he', Except.ok.injEq,
        Column.mk.injEq, true_and]
      refine List.ext_getElem? fun i => ?_
      rw [mapIdxFrom_getElem?]
      cases hL : (mapIdxFrom (fun j x =>
          if e ≤ j then x - (ve - vs)
          else if b ∧ s < j then ve - (ve - vs)
          else x) 0 c.samples)[i]? with
      | none => rfl
      | some x =>
        simp only [Option.map_some', Option.some.injEq, Nat.zero_add]
        by_cases h1 : e ≤ i
        · simp [h1]
        · by_cases h2 : (b : Prop) ∧ s < i
          · rw [mapIdxFrom_getElem?] at hL
            cases hci : c.samples[i]? with
            | none => rw [hci] at hL; exact absurd hL (by simp)
            | some y =>
              rw [hci] at hL
              simp only [Option.map_some', Option.some.injEq, Nat.zero_add,
                if_neg h1, if_pos h2] at hL
              rw [if_neg h1, if_pos h2, ← hL]
              ring
          · simp [h1, h2]

/-- Witness for C4: the first application to the spec's example
`[1,1,9,9,2,2]` with window `[1,4]` yields `[1,1,1,1,1,1]`, and a second
application returns it unchanged. -/
theorem remove_offset_idempotent_witness :
    remove_offset ⟨"MPa", [1, 1, 1, 1, 1, 1]⟩ 1 4 true =
      Except.ok ⟨"MPa", [1, 1, 1, 1, 1, 1]⟩ :=
  remove_offset_idempotent ⟨"MPa", [1, 1, 9, 9, 2, 2]⟩ ⟨"MPa", [1, 1, 1, 1, 1, 1]⟩
    1 4 true (by norm_num [remove_offset, mapIdxFrom])

end Pylook

namespace Pylook

/-- C5: at every row present in both columns, `elastic_correction` subtracts
the polynomial in the stress sample (coefficients highest-degree-first) from
the displacement sample; with coefficients `[k, 0]` and stress sample `σ`
the subtraction is exactly `k·σ`, so a constant stress column gives a
uniform shift. -/
theorem elastic_correction_spec (stress disp : Column) (coeffs : List ℚ)
    (k : ℚ) (i : ℕ) (σ d : ℚ)
    (hs : stress.samples[i]? = some σ) (hd : disp.samples[i]? = some d) :
    (elastic_correction stress disp coeffs).unit = disp.unit ∧
    (elastic_correction stress disp coeffs).samples[i]? =
      some (d - polyval coeffs σ) ∧
    (elastic_correction stress disp [k, 0]).samples[i]? = some (d - k * σ) := by
  have hz : (stress.samples.zip disp.samples)[i]? = some (σ, d) :=
    List.getElem?_zip_eq_some.mpr ⟨hs, hd⟩
  refine ⟨rfl, ?_, ?_⟩
  · show ((stress.samples.zip disp.samples).map _)[i]? = _
    rw [List.getElem?_map, hz]
    rfl
  · show ((stress.samples.zip disp.samples).map _)[i]? = _
    rw [List.getElem?_map, hz]
    simp only [Option.map_some', Option.some.injEq, polyval, List.foldl]
    ring

/-- Witness for C5 at constant stress 5 MPa, displacement row 20, and the
stiffness pair `[3, 0]`: the correction subtracted is `3·5 = 15`. -/
theorem elastic_correction_spec_witness :
    (elastic_correction ⟨"MPa", [5, 5]⟩ ⟨"um", [10, 20]⟩ [3, 0]).unit =
      (Column.mk "um" [10, 20]).unit ∧
    (elastic_correction ⟨"MPa", [5, 5]⟩ ⟨"um", [10, 20]⟩ [3, 0]).samples[1]? =
      some (20 - polyval [3, 0] 5) ∧
    (elastic_correction ⟨"MPa", [5, 5]⟩ ⟨"um", [10, 20]⟩ [3, 0]).samples[1]? =
      some (20 - 3 * 5) :=
  elastic_correction_spec ⟨"MPa", [5, 5]⟩ ⟨"um", [10, 20]⟩ [3, 0] 3 1 5 20
    (by norm_num) (by norm_num)

/-- C3: for equal-length shear and normal columns, `friction` is total: it
keeps one dimensionless row per input row, returning the exact ratio
`shear / normal` at every row with nonzero normal stress and the finite
sentinel `0` at every row with zero normal stress; in the exact-rational
embedding no row can hold an infinity or a NaN. -/
theorem friction_spec (shear normal : Column)
    (h : shear.samples.length = normal.samples.length) (i : ℕ) (s n : ℚ)
    (hs : shear.samples[i]? = some s) (hn : normal.samples[i]? = some n) :
    (friction shear normal).unit = "dimensionless" ∧
    (friction shear normal).samples.length = shear.samples.length ∧
    (n = 0 → (friction shear normal).samples[i]? = some 0) ∧
    (n ≠ 0 → (friction shear normal).samples[i]? = some (s / n)) := by
  have hz : (shear.samples.zip normal.samples)[i]? = some (s, n) :=
    List.getElem?_zip_eq_some.mpr ⟨hs, hn⟩
  refine ⟨rfl, ?_, ?_, ?_⟩
  · show ((shear.samples.zip normal.samples).map _).length = _
    rw [List.length_map, List.length_zip, h, min_self]
  · intro hn0
    show ((shear.samples.zip normal.samples).map _)[i]? = _
    rw [List.getElem?_map, hz]
    simp [hn0]
  · intro hn0
    show ((shear.samples.zip normal.samples).map _)[i]? = _
    rw [List.getElem?_map, hz]
    simp [hn0]

/-- Witness for C3 at shear `[2,3]`, normal `[0,2]`: the zero-normal row
returns the sentinel 0 and the nonzero row returns the ratio `3/2`. -/
theorem friction_spec_witness :
    ((friction ⟨"MPa", [2, 3]⟩ ⟨"MPa", [0, 2]⟩).unit = "dimensionless" ∧
      (friction ⟨"MPa", [2, 3]⟩ ⟨"MPa", [0, 2]⟩).samples.length =
        (Column.mk "MPa" [2, 3]).samples.length ∧
      ((0 : ℚ) = 0 → (friction ⟨"MPa", [2, 3]⟩ ⟨"MPa", [0, 2]⟩).samples[0]? = some 0) ∧
      ((0 : ℚ) ≠ 0 → (friction ⟨"MPa", [2, 3]⟩ ⟨"MPa", [0, 2]⟩).samples[0]? =
        some (2 / 0))) ∧
    ((2 : ℚ) ≠ 0 → (friction ⟨"MPa", [2, 3]⟩ ⟨"MPa", [0, 2]⟩).samples[1]? =
      some (3 / 2)) :=
  ⟨friction_spec ⟨"MPa", [2, 3]⟩ ⟨"MPa", [0, 2]⟩ rfl 0 2 0 (by norm_num) (by norm_num),
   (friction_spec ⟨"MPa", [2, 3]⟩ ⟨"MPa", [0, 2]⟩ rfl 1 3 2 (by norm_num)
      (by norm_num)).2.2.2⟩

/-- C9: `get_version` first attempts the source-control path and returns its
string on success; when that path is unavailable it returns the
installed-distribution fallback's string; when neither source is available it
propagates an error instead of returning a default. -/
theorem get_version_spec :
    (∀ (v : String) (pkg : Except PyExc String),
        get_version ⟨Except.ok v, pkg⟩ = Except.ok v) ∧
    (∀ (e : PyExc) (w : String), isCaught e = true →
        get_version ⟨Except.error e, Except.ok w⟩ = Except.ok w) ∧
    (∀ (e e' : PyExc), isCaught e = true →
        get_version ⟨Except.error e, Except.error e'⟩ = Except.error e') := by
  refine ⟨fun v pkg => rfl, ?_, ?_⟩
  · intro e w hc
    simp [get_version, hc]
  · intro e e' hc
    simp [get_version, hc]

/-- Witness for C9: setuptools_scm raising `ImportError` falls back to the
pkg_resources result, both success and failure. -/
theorem get_version_spec_witness :
    get_version ⟨Except.error PyExc.importError, Except.ok "1.0"⟩ =
      Except.ok "1.0" ∧
    get_version ⟨Except.error PyExc.importError,
        Except.error (PyExc.other "DistributionNotFound")⟩ =
      Except.error (PyExc.other "DistributionNotFound") :=
  ⟨get_version_spec.2.1 PyExc.importError "1.0" rfl,
   get_version_spec.2.2 PyExc.importError (PyExc.other "DistributionNotFound") rfl⟩

/-- C10: the fallback is taken exactly when the source-control path fails
with `ImportError` or `LookupError` (the caught set); any other exception
propagates with the fallback never consulted, and whatever the fallback
produces — its string or its own uncaught exception — is returned as is. -/
theorem get_version_fallback_iff :
    (∀ (d : String) (pkg : Except PyExc String),
        get_version ⟨Except.error (PyExc.other d), pkg⟩ =
          Except.error (PyExc.other d)) ∧
    (∀ (e : PyExc) (pkg : Except PyExc String), isCaught e = true →
        get_version ⟨Except.error e, pkg⟩ = pkg) ∧
    (isCaught PyExc.importError = true ∧ isCaught PyExc.lookupError = true ∧
      ∀ d, isCaught (PyExc.other d) = false) := by
  refine ⟨fun d pkg => rfl, ?_, rfl, rfl, fun d => rfl⟩
  intro e pkg hc
  simp [get_version, hc]

/-- Witness for C10: an uncaught exception skips the fallback even when the
fallback would succeed; a caught `LookupError` returns the fallback's
failure unchanged. -/
theorem get_version_fallback_iff_witness :
    get_version ⟨Except.error (PyExc.other "OSError"), Except.ok "1.0"⟩ =
      Except.error (PyExc.other "OSError") ∧
    get_version ⟨Except.error PyExc.lookupError,
        Except.error (PyExc.other "DistributionNotFound")⟩ =
      Except.error (PyExc.other "DistributionNotFound") :=
  ⟨get_version_fallback_iff.1 "OSError" (Except.ok "1.0"),
   get_version_fallback_iff.2.1 PyExc.lookupError
     (Except.error (PyExc.other "DistributionNotFound")) rfl⟩

end Pylook
